import Mathlib

/-!
Verification of gaplint.py (a style checker for GAP source files).

The Python source is shallowly embedded: lines are `List Char`, Python
`str.find` / regex scans become explicit recursive scans, Python exceptions
(AssertionError, KeyError, NameError, IndexError, AttributeError) become
`Except String` errors, and the stateful rule objects become explicit state
passed in and out of their `__call__` functions.
-/

namespace Gaplint

/-- Python `\s` on an ASCII str (re module without re.UNICODE). -/
def isPySpace (c : Char) : Bool :=
  c = ' ' || c = '\t' || c = '\n' || c = '\r' || c = '\x0b' || c = '\x0c'

/-- Python `\w` on an ASCII str: `[a-zA-Z0-9_]`. -/
def isWordChar (c : Char) : Bool :=
  c.isAlphanum || c = '_'

/-- Whether `re.search(r'^\s*$', line)` matches: without `re.MULTILINE`, `^`
anchors at position 0 and `$` matches at the end or just before a final
newline, so the pattern matches exactly the all-whitespace lines. -/
def pyBlank (ln : List Char) : Bool :=
  ln.all isPySpace

/-- Model of `_eol(line)`: `(line[-1] == '\n') * '\n'`.  (On the empty string the
Python code would raise IndexError; it is never called on an empty string
on the paths modelled here, so we model the total behaviour.) -/
def eol (ln : List Char) : List Char :=
  if ln.getLastD ' ' = '\n' then ['\n'] else []

/-- Number of leading backslashes of a character list. -/
def countLeadingBS : List Char → Nat
  | '\\' :: t => countLeadingBS t + 1
  | _ => 0

/-- Model of `_ESCAPE_PATTERN.search(s)` for the pattern
`(^\\(\\\\)*[^\\]+.*$|^\\(\\\\)*$)`: it matches iff `s` starts with an odd
number of backslashes followed by a non-backslash or the end of the string,
i.e. iff the number of leading backslashes of `s` is odd. -/
def escapeSearch (s : List Char) : Bool :=
  countLeadingBS s % 2 = 1

/-- Core of `_is_escaped(line, pos)` for an already-adjusted non-negative
index `p`.  Python evaluates `line[pos - 1] != '\\'`; for `p = 0` the index
`-1` wraps around to the last character of the line.  It then searches
`_ESCAPE_PATTERN` in `line[:pos][::-1]`. -/
def isEscapedAt (ln : List Char) (p : Nat) : Bool :=
  let prev := if p = 0 then ln.getLastD ' ' else ln.getD (p - 1) ' '
  if prev ≠ '\\' then false
  else escapeSearch (ln.take p).reverse

/-- Python index adjustment: a negative `pos` counts from the end. -/
def pyAdjust (len : Nat) (pos : Int) : Nat :=
  (if pos < 0 then (len : Int) + pos else pos).toNat

/-- Model of `_is_escaped(line, pos)`: asserts
`(pos >= 0 and pos < len(line)) or (pos < 0 and len(line) + pos > 0)`,
then checks whether the character at (the adjusted) `pos` is preceded by an
odd number of consecutive backslashes.  The assertion failure is modelled as
an `Except.error`. -/
def is_escaped (ln : List Char) (pos : Int) : Except String Bool :=
  if (0 ≤ pos ∧ pos < (ln.length : Int)) ∨ (pos < 0 ∧ 0 < (ln.length : Int) + pos) then
    .ok (isEscapedAt ln (pyAdjust ln.length pos))
  else
    .error "AssertionError"

/-- Model of `_is_double_quote_in_char(line, pos)`: detects the pattern `'"'`
(a double quote inside a one-character literal): requires `pos > 0`,
`pos + 1 < len(line)`, `line[pos-1:pos+2] == '\'"\''`, and that the opening
single quote is not itself escaped. -/
def isDoubleQuoteInChar (ln : List Char) (pos : Nat) : Bool :=
  decide (0 < pos) && decide (pos + 1 < ln.length) &&
    ((ln.drop (pos - 1)).take 3 == ['\'', '"', '\'']) &&
    !(isEscapedAt ln (pos - 1))

/-- A position `i` holds a valid quote `q`: the character there is `q` and
it is neither escaped nor a double quote inside a character literal.  These
are exactly the checks of `ReplaceQuotes._next_valid_quote`. -/
def validQuote (q : Char) (ln : List Char) (i : Nat) : Bool :=
  (ln[i]? == some q) && !(isEscapedAt ln i) && !(isDoubleQuoteInChar ln i)

/-- Scan helper for `nextValidQuote`: try positions `pos, pos+1, ...`,
`n` of them. -/
def nvqAux (q : Char) (ln : List Char) : Nat → Nat → Option Nat
  | _, 0 => none
  | pos, n + 1 =>
      if validQuote q ln pos then some pos else nvqAux q ln (pos + 1) n

/-- Model of `ReplaceQuotes._next_valid_quote(line, pos)`: Python repeatedly runs
`line.find(quote, pos)` and skips occurrences that are escaped or inside a
character literal; the result is exactly the least index `≥ pos` holding a
valid quote (`-1`, here `none`, if there is none). -/
def nextValidQuote (q : Char) (ln : List Char) (pos : Nat) : Option Nat :=
  nvqAux q ln pos (ln.length - pos)

/-- Scan helper for `findFrom`. -/
def ffAux (q : Char) (ln : List Char) : Nat → Nat → Option Nat
  | _, 0 => none
  | pos, n + 1 =>
      if ln[pos]? == some q then some pos else ffAux q ln (pos + 1) n

/-- Python `line.find(q, pos)` for a single character `q`: least index
`≥ pos` where `q` occurs (`-1`, here `none`, if there is none). -/
def findFrom (q : Char) (ln : List Char) (pos : Nat) : Option Nat :=
  ffAux q ln pos (ln.length - pos)

/-- Model of `RuleOutput`: the output of a rule applied to a line. -/
structure RuleOutput where
  ln : List Char
  msg : Option String := none
  abort : Bool := false
deriving DecidableEq, Repr

/-- The `while beg != -1:` loop of `ReplaceQuotes.__call__`.  `roline` is the
current `ro.line`, `begOpt` the current `beg` (`none` for `-1`), `origEol`
is `_eol(line)` of the original argument (used in the dangling-open branch).
The loop runs at most once per quote pair, so the fuel `line.length + 1`
supplied by `replaceQuotesCall` is never exhausted; exhaustion is a distinct
error so it cannot be mistaken for a genuine result.  Returns the final
`RuleOutput` together with the new `_consuming` flag. -/
def rqLoop (q : Char) (repl contRepl origEol : List Char) :
    Nat → List Char → Option Nat → Except String (RuleOutput × Bool)
  | 0, _, _ => .error "fuel exhausted"
  | _ + 1, roline, none => .ok (⟨roline, none, false⟩, false)
  | fuel + 1, roline, some beg =>
      match nextValidQuote q roline (beg + 1) with
      | none =>
          match is_escaped roline (-1) with
          | .error e => .error e
          | .ok true => .ok (⟨roline.take beg ++ contRepl ++ origEol, none, false⟩, true)
          | .ok false =>
              .ok (⟨roline,
                    some ("unmatched quote " ++ String.mk [q] ++ " in column "
                          ++ toString (beg + 1)),
                    true⟩, false)
      | some e =>
          let newline := roline.take beg ++ repl ++ roline.drop (e + 1)
          rqLoop q repl contRepl origEol fuel newline
            (nextValidQuote q newline (beg + repl.length + 1))

/-- Model of `ReplaceQuotes.__call__(line)` with `_consuming` state passed
explicitly (`'"'`/`__REMOVED_STRING__` for rule M003, `'\''`/
`__REMOVED_CHAR__` for rule M004).  `contRepl` is
`replacement[:-1] + 'CONTINUATION__'`.  Returns the `RuleOutput` and the new
`_consuming` flag; Python exceptions become `.error`. -/
def replaceQuotesCall (q : Char) (repl : List Char) (consuming : Bool)
    (ln : List Char) : Except String (RuleOutput × Bool) :=
  let contRepl := repl.dropLast ++ "CONTINUATION__".data
  if consuming then
    match nextValidQuote q ln 0 with
    | some e =>
        let roline := contRepl ++ ln.drop (e + 1)
        rqLoop q repl contRepl (eol ln) (ln.length + 1) roline
          (nextValidQuote q roline (e + 1))
    | none =>
        match is_escaped ln (-1) with
        | .error er => .error er
        | .ok true => .ok (⟨contRepl ++ eol ln, none, false⟩, true)
        | .ok false => .ok (⟨ln, some "invalid continuation of string", true⟩, true)
  else
    rqLoop q repl contRepl (eol ln) (ln.length + 1) ln
      (nextValidQuote q ln 0)

/-- End position of a match of `^gap>\s*` (`RemovePrefix._gap_gt_prefix`),
if the line starts with `gap>`. -/
def gapGtPfxEnd (ln : List Char) : Option Nat :=
  if ln.take 4 == "gap>".data then
    some (4 + ((ln.drop 4).takeWhile isPySpace).length)
  else none

/-- End position of a match of `^>\s*` (`RemovePrefix._gt_prefix`),
if the line starts with `>`. -/
def gtPfxEnd (ln : List Char) : Option Nat :=
  if ln.take 1 == ">".data then
    some (1 + ((ln.drop 1).takeWhile isPySpace).length)
  else none

/-- Model of `RemovePrefix.__call__(line, ext)` with the `_consuming` flag passed
explicitly.  Strips `gap>` (entering consuming mode) or, while consuming, a
leading `>`; any other line of a `tst`/`xml` file is replaced by the sentinel
`__REMOVED_LINE_FROM_TST_OR_XML_FILE__`.  Returns the new line and the new
`_consuming` flag. -/
def removePfxCall (consuming : Bool) (ext : String) (ln : List Char) :
    List Char × Bool :=
  if ext == "tst" || ext == "xml" then
    match gapGtPfxEnd ln with
    | some e => (ln.drop e, true)
    | none =>
        if consuming then
          match gtPfxEnd ln with
          | some e => (ln.drop e, consuming)
          | none => ("__REMOVED_LINE_FROM_TST_OR_XML_FILE__".data ++ eol ln, false)
        else ("__REMOVED_LINE_FROM_TST_OR_XML_FILE__".data ++ eol ln, consuming)
  else (ln, consuming)

/-- The per-file loop `lines[i] = _remove_prefix(lines[i], ext)` of
`run_gaplint`, threading the prefix stripper's `_consuming` state through
the lines of one file.  `run_gaplint` resets the rules in `RULES` after each
file, but `_remove_prefix` is not in `RULES` and has no reset, so its final
state is carried into the next file. -/
def runFilePfx (st : Bool) (ext : String) : List (List Char) → List (List Char) × Bool
  | [] => ([], st)
  | l :: t =>
      let r := removePfxCall st ext l
      let rest := runFilePfx r.2 ext t
      (r.1 :: rest.1, rest.2)

/-- Model of `LineTooLong.__call__(line)` with the resolved `columns` configuration
value passed explicitly.  Warns when `len(line) > cols`; never modifies the
line and never aborts. -/
def lineTooLongCall (cols : Nat) (ln : List Char) : RuleOutput :=
  ⟨ln,
   if cols < ln.length then
     some ("too long line (" ++ toString (ln.length - 1) ++ " / " ++ toString cols ++ ")")
   else none,
   false⟩

/-- Model of `WarnRegex.__call__(line)` (also inherited by `WhitespaceOperator`):
counts the non-excused matches of the rule's pattern — abstracted here as
the function `matchCount`, since the conclusion never depends on the pattern
— and returns `RuleOutput(line, msg, False)`: the warning message when at
least one match remains, the line unchanged, abort always `False`. -/
def warnRegexCall (matchCount : List Char → Nat) (warningMsg : String)
    (ln : List Char) : RuleOutput :=
  ⟨ln, if 0 < matchCount ln then some warningMsg else none, false⟩

/-- Match count of `ConsecutiveEmptyLines`' inherited pattern `^\s*$`:
one match iff the line is blank. -/
def ceMatchCount (ln : List Char) : Nat :=
  if pyBlank ln then 1 else 0

/-- Model of `ConsecutiveEmptyLines.__call__(line)` with `_prev_line_empty` passed
explicitly: calls `WarnRegex.__call__`; if it produced a message and the
previous line was not empty, the message is cleared (and the flag set);
a non-blank line clears the flag.  Returns the new flag and the output. -/
def consecutiveEmptyLinesCall (prev : Bool) (ln : List Char) : Bool × RuleOutput :=
  let ro := warnRegexCall ceMatchCount "consecutive empty lines!" ln
  match ro.msg with
  | some _ => if !prev then (true, { ro with msg := none }) else (true, ro)
  | none => (false, ro)

/-- Feed a list of lines through `ConsecutiveEmptyLines`, collecting the
message of each output and the final `_prev_line_empty` state. -/
def ceRun (prev : Bool) : List (List Char) → List (Option String) × Bool
  | [] => ([], prev)
  | l :: t =>
      let r := consecutiveEmptyLinesCall prev l
      let rest := ceRun r.1 t
      (r.2.msg :: rest.1, rest.2)

/-- The exit-code tail of `run_gaplint` when executed as a script:
```
if total_nr_warnings != 0:
    if not _SILENT:
        sys.stderr.write(...)
        if __name__ == '__main__':
            sys.exit(1)
if __name__ == '__main__':
    sys.exit(0)
```
`sys.exit(1)` is nested inside `if not _SILENT`, so with `_SILENT` set the
function falls through to `sys.exit(0)` even when warnings were produced. -/
def runGaplintExitCode (silent : Bool) (totalWarnings : Nat) : Nat :=
  if totalWarnings ≠ 0 then
    if !silent then 1 else 0
  else 0

/-- Accumulator pass splitting a character list into the maximal runs of
word characters, i.e. the matches of `\w+`. -/
def wordRunsAux : List Char → List Char → List (List Char)
  | [], acc => if acc.isEmpty then [] else [acc.reverse]
  | c :: t, acc =>
      if isWordChar c then wordRunsAux t (c :: acc)
      else if acc.isEmpty then wordRunsAux t []
      else acc.reverse :: wordRunsAux t []

/-- All matches of `\w+` in a character list, in order. -/
def wordRuns (l : List Char) : List (List Char) := wordRunsAux l []

/-- Model of `self._var_p.findall(line, start, end)`: CPython's `_sre` clamps a
negative `endpos` to 0 and an over-long one to the length, then matches
`\w+` within the region `[start, end)`.  In particular passing the `-1` of a
failed `find` as `end` yields an empty region and hence no matches. -/
def findallWordsRegion (ln : List Char) (start : Nat) (endI : Int) : List String :=
  let e := (min (max endI 0) (ln.length : Int)).toNat
  (wordRuns ((ln.take e).drop start)).map String.mk

/-- Whether the regexes `(^|\W)(function)(\W)`, `(^|\W)(local)(\W)` and
`(^|\W)end\W` match with the keyword at position `i`: the keyword occurs at
`i`, is at the line start or preceded by a non-word character, and is
followed by at least one character that is a non-word character. -/
def kwMatchAt (kw : List Char) (ln : List Char) (i : Nat) : Bool :=
  ((ln.drop i).take kw.length == kw) &&
  (decide (i = 0) || !(isWordChar (ln.getD (i - 1) ' '))) &&
  (match ln[i + kw.length]? with
   | some c => !isWordChar c
   | none => false)

/-- Position of the keyword in the first (leftmost) match of the keyword
regex in the line, mirroring `pattern.search`. -/
def findKw (kw : List Char) (ln : List Char) : Option Nat :=
  (List.range ln.length).find? (fun i => kwMatchAt kw ln i)

/-- Python list-index adjustment: a negative index counts from the end;
out-of-range yields `none` (IndexError). -/
def pyIdx (len : Nat) (i : Int) : Option Nat :=
  let j := if i < 0 then i + len else i
  if 0 ≤ j ∧ j < (len : Int) then some j.toNat else none

/-- Python `l[i]` on a list: IndexError out of range. -/
def pyGet {α : Type} [Inhabited α] (l : List α) (i : Int) : Except String α :=
  match pyIdx l.length i with
  | some j => .ok (l.getD j default)
  | none => .error "IndexError: list index out of range"

/-- Replace the element at Python index `i` (no-op if out of range; only
used after a successful `pyGet` on the same index). -/
def pySet {α : Type} (l : List α) (i : Int) (x : α) : List α :=
  match pyIdx l.length i with
  | some j => l.set j x
  | none => l

/-- Model of `UnusedLVarsFunc._keywords`. -/
def ulKeywords : List String :=
  ["true", "false", "continue", "break", "if", "fi", "else", "for", "od",
   "while", "repeat", "until", "return", "__REMOVED_STRING__", "__REMOVED_CHAR__"]

/-- The mutable state of `UnusedLVarsFunc`: the consuming sub-states, the
current depth, and the stacks (Python lists, top at the end) of per-frame
argument and local-variable sets.  Python's frames are sets; they are
modelled as duplicate-free lists in insertion order (the code refuses
duplicates before they are ever added). -/
structure ULState where
  consumingArgs : Bool
  consumingLvars : Bool
  depth : Int
  args : List (List String)
  lvars : List (List String)
deriving DecidableEq, Repr

/-- The state after `UnusedLVarsFunc.reset` / `__init__`. -/
def ulInit : ULState := ⟨false, false, -1, [], []⟩

/-- Model of `UnusedLVarsFunc._add_function_args(line, start, end)`: collect `\w+`
matches in `[start, end)`, refuse duplicates and keywords (setting the
message and the abort flag but continuing the loop, as the Python `for`
does), add the rest to the frame `args[depth]`, and set `_consuming_args`
iff the line has no `)` at or after `start`. -/
def addFunctionArgs (s : ULState) (ln : List Char) (start : Nat) (endI : Int) :
    Except String (ULState × RuleOutput) := do
  let newArgs := findallWordsRegion ln start endI
  let args ← pyGet s.args s.depth
  let r := newArgs.foldl
    (fun (acc : List String × Option String × Bool) var =>
      if var ∈ acc.1 then (acc.1, some ("duplicate function argument: " ++ var), true)
      else if var ∈ ulKeywords then
        (acc.1, some ("function argument is keyword: " ++ var), true)
      else (acc.1 ++ [var], acc.2.1, acc.2.2))
    (args, none, false)
  .ok ({ s with args := pySet s.args s.depth r.1,
                consumingArgs := (findFrom ')' ln start).isNone },
       ⟨ln, r.2.1, r.2.2⟩)

/-- Model of `UnusedLVarsFunc._new_function(line)`: push empty frames, then parse the
argument list from the character after the first `(` following the keyword
(`m.start(3)` is the keyword position plus 8).  The asserts of the Python
code are modelled as errors.  If the line has no `(`, Python computes
`line.find('(', ...) + 1 == 0`, so parsing starts at 0. -/
def newFunction (s : ULState) (ln : List Char) : Except String (ULState × RuleOutput) :=
  match findKw "function".data ln with
  | none => .error "AssertionError"
  | some i =>
      if s.consumingArgs || s.consumingLvars then .error "AssertionError"
      else if ¬(s.depth + 1 = (s.args.length : Int) ∧ s.depth + 1 = (s.lvars.length : Int)) then
        .error "AssertionError"
      else
        let s1 := { s with depth := s.depth + 1,
                           lvars := s.lvars ++ [[]], args := s.args ++ [[]] }
        let start : Nat :=
          match findFrom '(' ln (i + 8) with
          | none => 0
          | some p => p + 1
        let endI : Int :=
          match findFrom ')' ln start with
          | none => -1
          | some e2 => (e2 : Int)
        addFunctionArgs s1 ln start endI

/-- Model of `UnusedLVarsFunc._add_lvars(line)`: set `_consuming_lvars` iff the line
has no `;`, then collect `\w+` matches before the `;` (none at all if there
is no `;`, since the `-1` endpos clamps to 0), refusing names already local,
already an argument, or a keyword, and skipping the word `local` itself. -/
def addLvars (s : ULState) (ln : List Char) : Except String (ULState × RuleOutput) := do
  let endI : Int :=
    match findFrom ';' ln 0 with
    | none => -1
    | some e2 => (e2 : Int)
  let lv ← pyGet s.lvars s.depth
  let ar ← pyGet s.args s.depth
  let newLvars := findallWordsRegion ln 0 endI
  let r := newLvars.foldl
    (fun (acc : List String × Option String × Bool) var =>
      if var ∈ acc.1 then (acc.1, some ("name used for two locals: " ++ var), true)
      else if var ∈ ar then (acc.1, some ("name used for argument and local: " ++ var), true)
      else if var ∈ ulKeywords then (acc.1, some ("local is keyword: " ++ var), true)
      else if var ≠ "local" then (acc.1 ++ [var], acc.2.1, acc.2.2)
      else (acc.1, acc.2.1, acc.2.2))
    (lv, none, false)
  .ok ({ s with consumingLvars := endI == -1,
                lvars := pySet s.lvars s.depth r.1 },
       ⟨ln, r.2.1, r.2.2⟩)

/-- Model of `UnusedLVarsFunc._remove_lvars(line)`: every `\w+` token of the line is
discarded from the argument and local sets of every frame
`0 .. depth` (all open frames). -/
def removeLvars (s : ULState) (ln : List Char) : Except String (ULState × RuleOutput) :=
  let vars := (wordRuns ln).map String.mk
  let upTo := s.depth + 1
  .ok ({ s with
          lvars := s.lvars.mapIdx
            (fun j fr => if (j : Int) < upTo then fr.filter (fun nm => !(vars.contains nm)) else fr),
          args := s.args.mapIdx
            (fun j fr => if (j : Int) < upTo then fr.filter (fun nm => !(vars.contains nm)) else fr) },
        ⟨ln, none, false⟩)

/-- Model of `UnusedLVarsFunc._end_function(line)`: asserts the closing keyword is
present and no consuming sub-state is active, pops the top frames
(IndexError if there is none), and, when the popped unused-locals set is
non-empty, produces the single combined message
`unused local variables: a, b, ...` (the commented-out block for unused
*arguments* produces nothing).  Never sets the abort flag. -/
def endFunction (s : ULState) (ln : List Char) : Except String (ULState × RuleOutput) :=
  if (findKw "end".data ln).isNone then .error "AssertionError"
  else if s.consumingArgs || s.consumingLvars then .error "AssertionError"
  else
    match s.lvars.getLast?, s.args.getLast? with
    | some top, some _ =>
        let s1 := { s with depth := s.depth - 1,
                           lvars := s.lvars.dropLast, args := s.args.dropLast }
        let msg :=
          if top ≠ [] then
            some ("unused local variables: " ++ String.intercalate ", " top)
          else none
        .ok (s1, ⟨ln, msg, false⟩)
    | _, _ => .error "IndexError: pop from empty list"

/-- Model of `UnusedLVarsFunc.__call__(line)`: the mutually exclusive cascade of
cases, in the priority order of the source. -/
def ulCall (s : ULState) (ln : List Char) : Except String (ULState × RuleOutput) := do
  if (findKw "function".data ln).isSome then
    let r ← newFunction s ln
    if r.2.msg.isNone && (findKw "end".data ln).isSome then
      let r2 ← removeLvars r.1 ln
      endFunction r2.1 ln
    else .ok r
  else if (findKw "local".data ln).isSome || s.consumingLvars then
    let r ← addLvars s ln
    if r.2.msg.isNone && (findKw "end".data ln).isSome then
      let r2 ← removeLvars r.1 ln
      endFunction r2.1 ln
    else .ok r
  else if (findKw "end".data ln).isSome then
    endFunction s ln
  else if s.consumingArgs then
    let endI : Int :=
      match findFrom ')' ln 0 with
      | none => -1
      | some e2 => (e2 : Int)
    addFunctionArgs s ln 0 endI
  else if 0 ≤ s.depth then
    removeLvars s ln
  else .ok (s, ⟨ln, none, false⟩)

/-- Feed a list of lines through `UnusedLVarsFunc`, collecting each
output's message and the final state. -/
def ulRun (s : ULState) : List (List Char) → Except String (ULState × List (Option String))
  | [] => .ok (s, [])
  | l :: t => do
      let r ← ulCall s l
      let rest ← ulRun r.1 t
      .ok (rest.1, r.2.msg :: rest.2)

/-- Model of `__RULE_NAMES_AND_CODES`, built from the `RULES` list of the source. -/
def ruleNamesAndCodes : List (String × String) :=
  [("line-too-long", "W001"), ("empty-lines", "W002"),
   ("trailing-whitespace", "W003"), ("remove-comments", "M001"),
   ("replace-multiline-strings", "M002"), ("replace-double-quotes", "M003"),
   ("replace-escaped-quotes", "M004"), ("indentation", "W004"),
   ("space-after-comma", "W005"), ("space-before-comma", "W006"),
   ("space-after-bracket", "W007"), ("space-before-bracket", "W008"),
   ("multiple-semicolons", "W009"), ("keyword-function", "W010"),
   ("whitespace-op-colon-equals", "W011"), ("tabs", "W012"),
   ("function-local-same-line", "W013"), ("whitespace-op-plus", "W014"),
   ("whitespace-op-multiply", "W015"), ("whitespace-op-negative", "W016"),
   ("whitespace-op-minus", "W017"), ("whitespace-op-less-than", "W018"),
   ("whitespace-op-less-equal", "W019"), ("whitespace-op-more-than", "W020"),
   ("whitespace-op-more-equal", "W021"), ("whitespace-op-equals", "W022"),
   ("whitespace-op-mapping", "W023"), ("whitespace-op-divide", "W024"),
   ("whitespace-op-power", "W025"), ("whitespace-op-not-equal", "W026"),
   ("whitespace-double-dot", "W027"), ("unused-local-variables", "W028")]

/-- Model of `__get_all_rules_list('codes')`. -/
def allRuleCodes : List String := ruleNamesAndCodes.map (fun p => p.2)

/-- Model of `__rule_code(rule)`: a name is translated to its code, a code is
returned unchanged, anything else gives Python `False`, modelled as
`none`. -/
def ruleCode (r : String) : Option String :=
  match ruleNamesAndCodes.find? (fun p => p.1 = r) with
  | some p => some p.2
  | none => if ruleNamesAndCodes.any (fun p => p.2 = r) then some r else none

/-- Accumulating loop of `__make_code_list`: `'all'` short-circuits to the
full code list; otherwise `__rule_code(rule)` is appended if not already
present.  Note that the Python code appends the result of `__rule_code`
without checking truthiness, so the `False` of an unknown rule (here
`none`) ends up in the list as well. -/
def mclAux (acc : List (Option String)) : List String → List (Option String)
  | [] => acc
  | r :: rest =>
      if r = "all" then allRuleCodes.map some
      else
        let c := ruleCode r
        if c ∈ acc then mclAux acc rest else mclAux (acc ++ [c]) rest

/-- Model of `__make_code_list(rule_list)`; `none` models the Python `None` value
(allowed for the `disable` key), which yields `[]`. -/
def makeCodeList : Option (List String) → List (Option String)
  | none => []
  | some rl => mclAux [] rl

/-- The discovered-configuration-file layer: a key/value document in which
every key may be absent.  For `disable`, the value itself may additionally
be Python `None`. -/
structure YmlDic where
  columns : Option Int
  maxWarnings : Option Int
  indentation : Option Int
  disable : Option (Option (List String))
deriving DecidableEq, Repr

/-- The run-time override layer (the `args` namespace of `_parse_args`):
`argparse` defaults `columns`, `max_warnings` and `indentation` to the
built-in defaults, and `disable` to the default *list* `[]`; when the user
passes `--disable` it is a string instead.  `disableArg = none` models the
default list. -/
structure PyArgs where
  disableArg : Option String
  maxWarnings : Int
  columns : Int
  indentation : Int
deriving DecidableEq, Repr

/-- The configuration resolved for the run, as observed through
`_get_config_val` (which reads `__CONFIG` and falls back to
`__DEFAULT_CONFIG`). -/
structure ResolvedConfig where
  columns : Int
  maxWarnings : Int
  indentation : Int
  disable : List (Option String)
deriving DecidableEq, Repr

/-- Model of `__set_user_config_dic(args)` followed by reading the four keys through
`_get_config_val`.  The Python code starts from the yml layer and
immediately evaluates `temp_config['disable']`, raising KeyError when that
layer omits the key (in particular whenever no configuration file was
found); it then evaluates `args.disable.split(',')`, raising AttributeError
when `--disable` was not passed (the default is the list `[]`, which has no
`split`).  A command-line value equal to the built-in default is treated as
absent.  `__CONFIG` starts empty, so the final loop copies the whole
working dictionary into it. -/
def setUserConfigDic (yml : YmlDic) (args : PyArgs) : Except String ResolvedConfig :=
  match yml.disable with
  | none => .error "KeyError: disable"
  | some dval =>
      let tempDisable := makeCodeList dval
      match args.disableArg with
      | none => .error "AttributeError: list object has no attribute split"
      | some s =>
          let rulesToDisable :=
            makeCodeList (some ((s.splitOn ",").map (fun x => x.trim)))
          let d1 := if rulesToDisable ≠ [] then rulesToDisable else tempDisable
          let mw := if args.maxWarnings ≠ 1000 then some args.maxWarnings else yml.maxWarnings
          let co := if args.columns ≠ 80 then some args.columns else yml.columns
          let ind := if args.indentation ≠ 2 then some args.indentation else yml.indentation
          .ok { columns := co.getD 80, maxWarnings := mw.getD 1000,
                indentation := ind.getD 2, disable := d1 }

/-- Match a literal character sequence at the head of the list, returning
the rest. -/
def matchLit (pat : List Char) (l : List Char) : Option (List Char) :=
  if l.take pat.length == pat then some (l.drop pat.length) else none

/-- Greedy `\s*`. -/
def skipPySpace (l : List Char) : List Char := l.dropWhile isPySpace

/-- Match of `#\s*gaplint:\s*disable\s*=\s*` (the same-line directive
pattern of `__get_line_suppressions`) at the head of `l`, returning the
number of characters the match consumes.  Each `\s*` is followed by a
non-space literal, so greedy matching is deterministic. -/
def pat1MatchAt (l : List Char) : Option Nat :=
  match l with
  | '#' :: r =>
      (matchLit "gaplint:".data (skipPySpace r)).bind fun r2 =>
      (matchLit "disable".data (skipPySpace r2)).bind fun r4 =>
      (matchLit "=".data (skipPySpace r4)).bind fun r6 =>
      some (l.length - (skipPySpace r6).length)
  | _ => none

/-- Match of `#\s* gaplint:\s*disable\(nextline\)=\s*` (the next-line
directive pattern) at the head of `l`.  The `\s*` after `#` is followed by
a literal space and then the non-space `g`, so it must consume the whole
whitespace run except the final character, which must be a plain space. -/
def pat2MatchAt (l : List Char) : Option Nat :=
  match l with
  | '#' :: r =>
      let ws := r.takeWhile isPySpace
      if ws.isEmpty || ws.getLastD ' ' ≠ ' ' then none
      else
        (matchLit "gaplint:".data (r.drop ws.length)).bind fun r2 =>
        (matchLit "disable(nextline)=".data (skipPySpace r2)).bind fun r4 =>
        some (l.length - (skipPySpace r4).length)
  | _ => none

/-- Model of `pattern.search`: try the matcher at every start position, returning
the end position (in the original list) of the leftmost match. -/
def searchAux (matchAt : List Char → Option Nat) : Nat → List Char → Option Nat
  | _, [] => none
  | i, l@(_ :: t) =>
      match matchAt l with
      | some k => some (i + k)
      | none => searchAux matchAt (i + 1) t

/-- Search a pattern in a line, returning the end of the leftmost match. -/
def searchPat (matchAt : List Char → Option Nat) (ln : List Char) : Option Nat :=
  searchAux matchAt 0 ln

/-- The `(-\w+)*` part of the rule-name regex
`((\w+(-\w+)*)+(-\S+){0,1})`: consume `-` followed by a word run, as long
as possible; returns the consumed characters and the rest.  Each step
consumes at least two characters, so the fuel passed by `matchRuleAt`
(the length of the list) always suffices. -/
def hyphenWordChain : Nat → List Char → List Char × List Char
  | 0, l => ([], l)
  | fuel + 1, '-' :: r =>
      if isWordChar (r.headD ' ') then
        let run := r.takeWhile isWordChar
        let rest := r.dropWhile isWordChar
        let nxt := hyphenWordChain fuel rest
        ('-' :: (run ++ nxt.1), nxt.2)
      else ([], '-' :: r)
  | _, l => ([], l)

/-- One match of the rule-name regex `((\w+(-\w+)*)+(-\S+){0,1})` at the
head of `l`: a word run, a chain of `-`-joined word runs (group 2 is this
whole core, since the outer `+` can never iterate twice), and optionally a
trailing `-` followed by a non-space run (group 3).  Group 1 is the whole
match.  Returns the three groups and the rest of the list. -/
def matchRuleAt (l : List Char) : Option ((List Char × List Char × List Char) × List Char) :=
  match l with
  | c :: _ =>
      if isWordChar c then
        let run := l.takeWhile isWordChar
        let r1 := l.dropWhile isWordChar
        let ch := hyphenWordChain r1.length r1
        let core := run ++ ch.1
        let g3r : List Char × List Char :=
          match ch.2 with
          | '-' :: r2 =>
              let sRun := r2.takeWhile (fun d => !isPySpace d)
              if sRun.isEmpty then ([], ch.2)
              else ('-' :: sRun, r2.drop sRun.length)
          | other => ([], other)
        some ((core ++ g3r.1, core, g3r.1), g3r.2)
      else none
  | [] => none

/-- Model of `pattern3.findall`: scan the list for non-overlapping matches of the
rule-name regex, each yielding its tuple of groups.  `fuel` bounds the scan
(the caller passes the length of the list plus one, which always
suffices since every step consumes at least one character). -/
def findallRules : Nat → List Char → List (List Char × List Char × List Char)
  | 0, _ => []
  | _ + 1, [] => []
  | fuel + 1, l@(_ :: t) =>
      match matchRuleAt l with
      | some (g, rest) => g :: findallRules fuel rest
      | none => findallRules fuel t

/-- Model of `__unpack_tuple_list(tuplist)`: walk the group tuples in order; the
string `all` short-circuits to all rule codes; otherwise `__rule_code` is
consulted and truthy codes are collected without repetition. -/
def processRules (acc : List String) : List String → List String
  | [] => acc
  | r :: rest =>
      if r = "all" then allRuleCodes
      else
        match ruleCode r with
        | some c => if c ∈ acc then processRules acc rest else processRules (acc ++ [c]) rest
        | none => processRules acc rest

/-- Flatten the `findall` tuples into the sequence Python's
`for tup in tuplist: for rule in tup` visits. -/
def flattenGroups (ts : List (List Char × List Char × List Char)) : List String :=
  ts.foldr (fun t acc => String.mk t.1 :: String.mk t.2.1 :: String.mk t.2.2 :: acc) []

/-- Model of `__get_line_suppressions(fname, line, linenum)`: search for the
same-line and next-line directive patterns; if either matches, extract rule
names after the match and resolve them to codes.  With no parseable code
the function warns and returns an empty suppression set; with at least one
code the Python source calls `make_dic(valid, ...)` — but the only function
defined is `__make_dic`, so this raises `NameError`, modelled as an
error. -/
def getLineSuppressions (ln : List Char) : Except String (Bool × List String) :=
  let m1 := searchPat pat1MatchAt ln
  let m2 := searchPat pat2MatchAt ln
  if m1.isSome || m2.isSome then
    let p : Bool × Nat :=
      match m2 with
      | some e => (true, e)
      | none => (false, m1.getD 0)
    let rest := ln.drop p.2
    let valid := processRules [] (flattenGroups (findallRules (rest.length + 1) rest))
    if valid.length = 0 then .ok (p.1, [])
    else .error "NameError: name make_dic is not defined"
  else .ok (false, [])

/-! ### Supporting lemmas -/

theorem validQuote_of_le_length (q : Char) (ln : List Char) (i : Nat)
    (h : ln.length ≤ i) : validQuote q ln i = false := by
  simp [validQuote, List.getElem?_eq_none h]

theorem validQuote_lt_length (q : Char) (ln : List Char) (i : Nat)
    (h : validQuote q ln i = true) : i < ln.length := by
  by_contra hc
  rw [validQuote_of_le_length q ln i (by omega)] at h
  exact Bool.false_ne_true h

theorem validQuote_getElem (q : Char) (ln : List Char) (i : Nat)
    (h : validQuote q ln i = true) : ln[i]? = some q := by
  simp only [validQuote, Bool.and_eq_true, beq_iff_eq] at h
  exact h.1.1

theorem validQuote_of_not_mem (q : Char) (ln : List Char) (i : Nat)
    (h : q ∉ ln) : validQuote q ln i = false := by
  by_contra hc
  have hv : validQuote q ln i = true := by
    cases hvq : validQuote q ln i
    · exact absurd hvq hc
    · rfl
  exact h (List.getElem?_mem (validQuote_getElem q ln i hv))

theorem nvqAux_eq_none (q : Char) (ln : List Char) :
    ∀ n pos, (∀ i, pos ≤ i → validQuote q ln i = false) →
      nvqAux q ln pos n = none := by
  intro n
  induction n with
  | zero => intro pos _; rfl
  | succ n ih =>
      intro pos h
      simp only [nvqAux, h pos le_rfl, if_false, Bool.false_eq_true]
      exact ih (pos + 1) (fun i hi => h i (by omega))

theorem nextValidQuote_eq_none (q : Char) (ln : List Char) (pos : Nat)
    (h : ∀ i, pos ≤ i → i < ln.length → validQuote q ln i = false) :
    nextValidQuote q ln pos = none := by
  apply nvqAux_eq_none
  intro i hi
  by_cases hlen : i < ln.length
  · exact h i hi hlen
  · exact validQuote_of_le_length q ln i (by omega)

theorem nvqAux_eq_some (q : Char) (ln : List Char) :
    ∀ n pos j, pos ≤ j → j < pos + n → validQuote q ln j = true →
      (∀ i, pos ≤ i → i < j → validQuote q ln i = false) →
      nvqAux q ln pos n = some j := by
  intro n
  induction n with
  | zero => intro pos j h1 h2 _ _; omega
  | succ n ih =>
      intro pos j h1 h2 hv hmin
      by_cases hpj : pos = j
      · subst hpj
        simp [nvqAux, hv]
      · have hfalse : validQuote q ln pos = false := hmin pos le_rfl (by omega)
        simp only [nvqAux, hfalse, if_false, Bool.false_eq_true]
        exact ih (pos + 1) j (by omega) (by omega) hv (fun i hi1 hi2 => hmin i (by omega) hi2)

theorem nextValidQuote_eq_some (q : Char) (ln : List Char) (pos j : Nat)
    (h1 : pos ≤ j) (hv : validQuote q ln j = true)
    (hmin : ∀ i, pos ≤ i → i < j → validQuote q ln i = false) :
    nextValidQuote q ln pos = some j := by
  have hlt : j < ln.length := validQuote_lt_length q ln j hv
  exact nvqAux_eq_some q ln (ln.length - pos) pos j h1 (by omega) hv hmin

theorem countLeadingBS_cons (c : Char) (t : List Char) :
    countLeadingBS (c :: t) = if c = '\\' then countLeadingBS t + 1 else 0 := by
  rw [countLeadingBS.eq_def]
  split
  · rename_i t2 heq
    injection heq with h1 h2
    subst h1 h2
    rw [if_pos rfl]
  · rename_i hne
    rw [if_neg]
    intro hc
    subst hc
    exact hne t rfl

theorem countLeadingBS_pos (l : List Char) (h : 0 < countLeadingBS l) :
    ∃ t, l = '\\' :: t := by
  cases l with
  | nil => simp [countLeadingBS] at h
  | cons c t =>
      rw [countLeadingBS_cons] at h
      by_cases hc : c = '\\'
      · exact ⟨t, by rw [hc]⟩
      · rw [if_neg hc] at h
        omega

/-- On a valid adjusted index, the outcome of `isEscapedAt` is exactly the
parity test: the preliminary peek at the preceding character (which wraps
around at index 0) never changes the result. -/
theorem isEscapedAt_eq_escapeSearch (ln : List Char) (p : Nat) (hp : p ≤ ln.length) :
    isEscapedAt ln p = escapeSearch (ln.take p).reverse := by
  cases hs : escapeSearch (ln.take p).reverse with
  | false =>
      unfold isEscapedAt
      simp only [hs]
      split <;> split <;> rfl
  | true =>
      have hpos : 0 < countLeadingBS (ln.take p).reverse := by
        unfold escapeSearch at hs
        by_contra hc
        have h0 : countLeadingBS (ln.take p).reverse = 0 := by omega
        rw [h0] at hs
        simp at hs
      obtain ⟨t, ht⟩ := countLeadingBS_pos _ hpos
      have hne : ln.take p ≠ [] := by
        intro hcon
        rw [hcon] at ht
        simp at ht
      have hp1 : 1 ≤ p := by
        by_contra hc
        have : p = 0 := by omega
        rw [this] at hne
        simp at hne
      have hlast : (ln.take p).getLast? = some '\\' := by
        rw [← List.head?_reverse, ht]
        rfl
      have hget : ln[p - 1]? = some '\\' := by
        have h1 : (ln.take p).getLast? = (ln.take p)[(ln.take p).length - 1]? := by
          rw [List.getLast?_eq_getElem?]
        have h2 : (ln.take p).length = p := by
          simp [List.length_take]
          omega
        rw [h1, h2, List.getElem?_take] at hlast
        rwa [if_pos (by omega)] at hlast
      have hprev : ln.getD (p - 1) ' ' = '\\' := by
        simp [List.getD, hget]
      unfold isEscapedAt
      simp only [hs]
      split
      · rename_i hc0
        exact absurd hc0 (by omega)
      · rw [hprev]
        simp

/-! ### C2: the escape predicate -/

/-- C2: for every line and valid position `pos` (non-negative in range, or
negative shorthand with `len(line) + pos > 0`), `_is_escaped(line, pos)` is
truthy iff the character at the adjusted position is immediately preceded
by an odd number of consecutive backslashes (the leading-backslash count of
the reversed prefix). -/
theorem is_escaped_iff_odd_backslashes (ln : List Char) (pos : Int)
    (h : (0 ≤ pos ∧ pos < (ln.length : Int)) ∨ (pos < 0 ∧ 0 < (ln.length : Int) + pos)) :
    is_escaped ln pos = .ok true ↔
      countLeadingBS (ln.take (pyAdjust ln.length pos)).reverse % 2 = 1 := by
  have hadj : pyAdjust ln.length pos ≤ ln.length := by
    unfold pyAdjust
    rcases h with ⟨h1, h2⟩ | ⟨h1, h2⟩
    · rw [if_neg (by omega)]
      omega
    · rw [if_pos h1]
      omega
  unfold is_escaped
  rw [if_pos h, isEscapedAt_eq_escapeSearch ln _ hadj]
  unfold escapeSearch
  constructor
  · intro heq
    have : (decide (countLeadingBS (ln.take (pyAdjust ln.length pos)).reverse % 2 = 1)) = true := by
      injection heq
    exact of_decide_eq_true this
  · intro hodd
    rw [decide_eq_true hodd]

/-- Witness for C2 at the concrete line `ab\"` and the negative position
`-1` (the quote): the backslash run before it has odd length 1. -/
theorem is_escaped_iff_odd_backslashes_witness :
    (((0 : Int) ≤ (-1 : Int) ∧ (-1 : Int) < (("ab\\\"".data).length : Int)) ∨
      ((-1 : Int) < 0 ∧ 0 < (("ab\\\"".data).length : Int) + (-1 : Int))) ∧
    is_escaped "ab\\\"".data (-1) = .ok true := by
  have h : (((0 : Int) ≤ (-1 : Int) ∧ (-1 : Int) < (("ab\\\"".data).length : Int)) ∨
      ((-1 : Int) < 0 ∧ 0 < (("ab\\\"".data).length : Int) + (-1 : Int))) := by decide
  exact ⟨h, (is_escaped_iff_odd_backslashes "ab\\\"".data (-1) h).mpr (by decide)⟩

/-! ### C3: the next-line suppression directive -/

/-- C3 (code bug): a line carrying a next-line suppression directive with a
valid rule code makes `__get_line_suppressions` call the undefined name
`make_dic` (the helper is called `__make_dic`), so the run dies with a
NameError instead of suppressing the named rule on the following line. -/
theorem line_suppressions_nextline_name_error :
    getLineSuppressions "# gaplint: disable(nextline)=W002\n".data =
      .error "NameError: name make_dic is not defined" := by rfl

/-! ### C4: configuration layering -/

/-- C4 (code bug): with no discovered configuration file (an empty yml
layer) and no `--disable` given, `__set_user_config_dic` raises
`KeyError: 'disable'` on `temp_config['disable']` instead of falling back
to the default for the omitted key.  (Here `--disable ''` is passed so that
the even earlier `args.disable.split` AttributeError is not what fires.) -/
theorem set_user_config_key_error :
    setUserConfigDic ⟨none, none, none, none⟩ ⟨some "", 1000, 80, 2⟩ =
      .error "KeyError: disable" := by rfl

/-! ### C6: state leaking across files -/

/-- C6 (code bug): the transcript prefix stripper `_remove_prefix` is a
module-level object that is not in `RULES` and is never reset.  After a
`tst` file ending in a `gap>` line its `_consuming` flag is `true`, so the
first line `> y;` of the next file is stripped to `y;` — whereas a fresh
stripper (third conjunct) replaces that line with the sentinel. -/
theorem remove_pfx_state_leak :
    (runFilePfx false "tst" ["gap> x;\n".data]).2 = true ∧
    (runFilePfx (runFilePfx false "tst" ["gap> x;\n".data]).2 "tst" ["> y;\n".data]).1 =
      ["y;\n".data] ∧
    (runFilePfx false "tst" ["> y;\n".data]).1 =
      ["__REMOVED_LINE_FROM_TST_OR_XML_FILE__\n".data] :=
  ⟨rfl, rfl, rfl⟩

/-! ### C8: consecutive blank lines -/

/-- Counterexample to C8 as stated: feeding two blank lines from the
initial state, the *first* blank line produces no warning and the *second*
one does — the opposite of "a warning for the first blank line of the run
and for no subsequent one". -/
theorem ce_counterexample :
    (ceRun false [['\n'], ['\n']]).1 = [none, some "consecutive empty lines!"] ∧
    (ceRun false [['\n'], ['\n']]).1 ≠ [some "consecutive empty lines!", none] := by
  refine ⟨rfl, ?_⟩
  intro hcon
  have h1 : (ceRun false [['\n'], ['\n']]).1 = [none, some "consecutive empty lines!"] := rfl
  rw [h1] at hcon
  simp at hcon

theorem ceRun_true_all_blank (ls : List (List Char))
    (h : ∀ x ∈ ls, pyBlank x = true) :
    (ceRun true ls).1 = ls.map (fun _ => some "consecutive empty lines!") := by
  induction ls with
  | nil => rfl
  | cons l t ih =>
      have hl : pyBlank l = true := h l (List.mem_cons_self l t)
      simp only [ceRun, consecutiveEmptyLinesCall, warnRegexCall, ceMatchCount, hl,
        if_pos (Nat.zero_lt_one), Bool.not_true, Bool.false_eq_true, if_false, List.map]
      exact congrArg (fun xs => some "consecutive empty lines!" :: xs)
        (ih (fun x hx => h x (List.mem_cons_of_mem l hx)))

/-- C8 as amended: in a maximal run of blank lines entered with
`_prev_line_empty` false, the first blank line produces *no* warning and
every subsequent blank line of the run produces one. -/
theorem ce_flags_all_but_first (l : List Char) (ls : List (List Char))
    (h1 : pyBlank l = true) (h2 : ∀ x ∈ ls, pyBlank x = true) :
    (ceRun false (l :: ls)).1 =
      none :: ls.map (fun _ => some "consecutive empty lines!") := by
  simp only [ceRun, consecutiveEmptyLinesCall, warnRegexCall, ceMatchCount, h1,
    if_pos (Nat.zero_lt_one), Bool.not_false, if_true]
  exact congrArg (fun xs => (none : Option String) :: xs) (ceRun_true_all_blank ls h2)

/-- Witness for the amended C8 on a run of three blank lines. -/
theorem ce_flags_all_but_first_witness :
    pyBlank ['\n'] = true ∧ (∀ x ∈ [['\n'], ['\n']], pyBlank x = true) ∧
    (ceRun false [['\n'], ['\n'], ['\n']]).1 =
      none :: [['\n'], ['\n']].map (fun _ => some "consecutive empty lines!") :=
  ⟨by decide, by decide,
   ce_flags_all_but_first ['\n'] [['\n'], ['\n']] (by decide) (by decide)⟩

/-! ### C9: exit code -/

/-- C9 (code bug): run as a script in silent mode, a run with warnings
exits 0 (first conjunct), because `sys.exit(1)` is nested inside
`if not _SILENT`; without silent it exits 1, and a clean run exits 0. -/
theorem silent_run_exit_code :
    runGaplintExitCode true 1 = 0 ∧ runGaplintExitCode false 1 = 1 ∧
    runGaplintExitCode true 0 = 0 :=
  ⟨rfl, rfl, rfl⟩

/-! ### C10: warning rules do not modify the line and never abort -/

/-- C10: every pattern-warning rule — `WarnRegex` and its
`WhitespaceOperator` specialization (both running `WarnRegex.__call__`,
here `warnRegexCall` for an arbitrary match counter), the stateful
`ConsecutiveEmptyLines`, and `LineTooLong` — returns the input line
unchanged and an abort flag of `False`, for every input line, match
counter, configuration and state. -/
theorem warn_rules_never_modify (f : List Char → Nat) (m : String) (cols : Nat)
    (prev : Bool) (ln : List Char) :
    (warnRegexCall f m ln).ln = ln ∧ (warnRegexCall f m ln).abort = false ∧
    (lineTooLongCall cols ln).ln = ln ∧ (lineTooLongCall cols ln).abort = false ∧
    ((consecutiveEmptyLinesCall prev ln).2).ln = ln ∧
    ((consecutiveEmptyLinesCall prev ln).2).abort = false := by
  refine ⟨rfl, rfl, rfl, rfl, ?_, ?_⟩ <;>
    · unfold consecutiveEmptyLinesCall warnRegexCall
      cases hb : (if 0 < ceMatchCount ln then some m else (none : Option String)) <;>
        cases prev <;> simp [ceMatchCount] <;> split <;> rfl

/-! ### The quote stripper: C1 and C5 -/

theorem replaceQuotesCall_not_consuming (q : Char) (repl ln : List Char) :
    replaceQuotesCall q repl false ln =
      rqLoop q repl (repl.dropLast ++ "CONTINUATION__".data) (eol ln)
        (ln.length + 1) ln (nextValidQuote q ln 0) := rfl

theorem rqLoop_exit (q : Char) (repl contRepl origEol : List Char) (n : Nat)
    (roline : List Char) :
    rqLoop q repl contRepl origEol (n + 1) roline none =
      .ok (⟨roline, none, false⟩, false) := rfl

theorem rqLoop_succ (q : Char) (repl contRepl origEol : List Char) (n : Nat)
    (roline : List Char) (beg : Nat) :
    rqLoop q repl contRepl origEol (n + 1) roline (some beg) =
      match nextValidQuote q roline (beg + 1) with
      | none =>
          match is_escaped roline (-1) with
          | .error e => .error e
          | .ok true => .ok (⟨roline.take beg ++ contRepl ++ origEol, none, false⟩, true)
          | .ok false =>
              .ok (⟨roline,
                    some ("unmatched quote " ++ String.mk [q] ++ " in column "
                          ++ toString (beg + 1)),
                    true⟩, false)
      | some e =>
          rqLoop q repl contRepl origEol n
            (roline.take beg ++ repl ++ roline.drop (e + 1))
            (nextValidQuote q (roline.take beg ++ repl ++ roline.drop (e + 1))
              (beg + repl.length + 1)) := rfl

theorem rqLoop_fatal (q : Char) (repl contRepl origEol : List Char) (n : Nat)
    (roline : List Char) (beg : Nat)
    (hend : nextValidQuote q roline (beg + 1) = none)
    (hesc : is_escaped roline (-1) = .ok false) :
    rqLoop q repl contRepl origEol (n + 1) roline (some beg) =
      .ok (⟨roline,
            some ("unmatched quote " ++ String.mk [q] ++ " in column "
                  ++ toString (beg + 1)),
            true⟩, false) := by
  rw [rqLoop_succ, hend, hesc]

theorem rqLoop_step (q : Char) (repl contRepl origEol : List Char) (n : Nat)
    (roline : List Char) (beg e : Nat)
    (hend : nextValidQuote q roline (beg + 1) = some e) :
    rqLoop q repl contRepl origEol (n + 1) roline (some beg) =
      rqLoop q repl contRepl origEol n
        (roline.take beg ++ repl ++ roline.drop (e + 1))
        (nextValidQuote q (roline.take beg ++ repl ++ roline.drop (e + 1))
          (beg + repl.length + 1)) := by
  rw [rqLoop_succ, hend]

/-- C5 as amended (the line must have at least two characters, else the
`_is_escaped(line, -1)` assertion fires, see the counterexample below):
while not consuming, if the first valid double quote of the line is at
0-based position `beg`, no valid quote follows it, and the line does not
end in an escaped line terminator, then the stripper aborts with the
message `unmatched quote " in column <beg+1>`, leaving the line intact. -/
theorem rq_unmatched_quote (ln : List Char) (beg : Nat)
    (hlen : 2 ≤ ln.length)
    (hv : validQuote '"' ln beg = true)
    (hfirst : ∀ i, i < beg → validQuote '"' ln i = false)
    (hafter : ∀ i, beg < i → i < ln.length → validQuote '"' ln i = false)
    (hesc : isEscapedAt ln (ln.length - 1) = false) :
    replaceQuotesCall '"' "__REMOVED_STRING__".data false ln =
      .ok (⟨ln, some ("unmatched quote \" in column " ++ toString (beg + 1)),
            true⟩, false) := by
  have h1 : nextValidQuote '"' ln 0 = some beg :=
    nextValidQuote_eq_some _ _ _ _ (Nat.zero_le beg) hv (fun i _ hi2 => hfirst i hi2)
  have h2 : nextValidQuote '"' ln (beg + 1) = none :=
    nextValidQuote_eq_none _ _ _ (fun i hi hlt => hafter i (by omega) hlt)
  have hadj : pyAdjust ln.length (-1) = ln.length - 1 := by
    unfold pyAdjust
    rw [if_pos (by norm_num)]
    omega
  have h3 : is_escaped ln (-1) = .ok false := by
    unfold is_escaped
    rw [if_pos (Or.inr ⟨by norm_num, by omega⟩), hadj, hesc]
  rw [replaceQuotesCall_not_consuming, h1,
    rqLoop_fatal _ _ _ _ ln.length ln beg h2 h3]
  have hstr : "unmatched quote " ++ String.mk ['"'] ++ " in column " =
      "unmatched quote \" in column " := by decide
  rw [hstr]

/-- Witness for the amended C5: the line `x := "abc;` (with newline) has
its only valid quote at position 5 and no closer, and the stripper aborts
reporting column 6. -/
theorem rq_unmatched_quote_witness :
    2 ≤ "x := \"abc;\n".data.length ∧
    validQuote '"' "x := \"abc;\n".data 5 = true ∧
    (∀ i, i < 5 → validQuote '"' "x := \"abc;\n".data i = false) ∧
    (∀ i, 5 < i → i < "x := \"abc;\n".data.length →
      validQuote '"' "x := \"abc;\n".data i = false) ∧
    replaceQuotesCall '"' "__REMOVED_STRING__".data false "x := \"abc;\n".data =
      .ok (⟨"x := \"abc;\n".data,
            some ("unmatched quote \" in column " ++ toString (5 + 1)),
            true⟩, false) := by
  have hf : ∀ i, i < 5 → validQuote '"' "x := \"abc;\n".data i = false := by
    decide
  have ha : ∀ i, 5 < i → i < "x := \"abc;\n".data.length →
      validQuote '"' "x := \"abc;\n".data i = false := by
    intro i h1 h2
    rw [show ("x := \"abc;\n".data.length) = 11 from rfl] at h2
    interval_cases i <;> decide
  exact ⟨by decide, by decide, hf, ha,
    rq_unmatched_quote "x := \"abc;\n".data 5 (by decide) (by decide) hf ha (by decide)⟩

/-- Counterexample to C5 as stated: the one-character line `"` satisfies
all hypotheses of the claim (its only quote is valid and unescaped, there
is no closer and no escaped terminator), yet the stripper does not return a
fatal `RuleOutput` — the `_is_escaped(line, -1)` precondition asserts,
killing the run with an `AssertionError`. -/
theorem rq_unmatched_quote_counterexample :
    validQuote '"' ['"'] 0 = true ∧ isEscapedAt ['"'] 0 = false ∧
    replaceQuotesCall '"' "__REMOVED_STRING__".data false ['"'] =
      .error "AssertionError" :=
  ⟨by decide, by decide, rfl⟩

/-- C1: on a line that is `u ++ '"' ++ v ++ '"' ++ w` with no other double
quote anywhere and both quotes valid (unescaped, not a quote-in-char), the
double-quote stripper while not consuming returns exactly
`u ++ __REMOVED_STRING__ ++ w`, with no message and no abort. -/
theorem rq_single_string (u v w : List Char)
    (hu : '"' ∉ u) (hvv : '"' ∉ v) (hw : '"' ∉ w)
    (hb1 : isEscapedAt (u ++ '"' :: (v ++ '"' :: w)) u.length = false)
    (hb2 : isDoubleQuoteInChar (u ++ '"' :: (v ++ '"' :: w)) u.length = false)
    (he1 : isEscapedAt (u ++ '"' :: (v ++ '"' :: w)) (u.length + v.length + 1) = false)
    (he2 : isDoubleQuoteInChar (u ++ '"' :: (v ++ '"' :: w)) (u.length + v.length + 1) = false) :
    replaceQuotesCall '"' "__REMOVED_STRING__".data false (u ++ '"' :: (v ++ '"' :: w)) =
      .ok (⟨u ++ "__REMOVED_STRING__".data ++ w, none, false⟩, false) := by
  set L := u ++ '"' :: (v ++ '"' :: w) with hL
  have hgb : L[u.length]? = some '"' := by
    rw [hL, List.getElem?_append_right (le_refl u.length)]
    simp
  have hge : L[u.length + v.length + 1]? = some '"' := by
    rw [hL, List.getElem?_append_right (by omega : u.length ≤ u.length + v.length + 1)]
    have h4 : u.length + v.length + 1 - u.length = v.length + 1 := by omega
    rw [h4, List.getElem?_cons_succ, List.getElem?_append_right (le_refl v.length)]
    simp
  have hvb : validQuote '"' L u.length = true := by
    unfold validQuote
    rw [hgb, hb1, hb2]
    rfl
  have hve : validQuote '"' L (u.length + v.length + 1) = true := by
    unfold validQuote
    rw [hge, he1, he2]
    rfl
  have hin : ∀ i, i < u.length → validQuote '"' L i = false := by
    intro i hi
    have hgu : L[i]? = u[i]? := by rw [hL, List.getElem?_append_left hi]
    unfold validQuote
    rcases hcase : u[i]? with _ | c
    · rw [hgu, hcase]
      rfl
    · have hcne : c ≠ '"' := fun hc => hu (hc ▸ List.getElem?_mem hcase)
      rw [hgu, hcase]
      simp [hcne]
  have hbet : ∀ i, u.length < i → i < u.length + v.length + 1 →
      validQuote '"' L i = false := by
    intro i hi1 hi2
    have hgv : L[i]? = v[i - u.length - 1]? := by
      rw [hL, List.getElem?_append_right (by omega : u.length ≤ i)]
      have h4 : i - u.length = (i - u.length - 1) + 1 := by omega
      rw [h4, List.getElem?_cons_succ,
        List.getElem?_append_left (by omega : i - u.length - 1 < v.length),
        Nat.add_sub_cancel]
    unfold validQuote
    rcases hcase : v[i - u.length - 1]? with _ | c
    · rw [hgv, hcase]
      rfl
    · have hcne : c ≠ '"' := fun hc => hvv (hc ▸ List.getElem?_mem hcase)
      rw [hgv, hcase]
      simp [hcne]
  have h1 : nextValidQuote '"' L 0 = some u.length :=
    nextValidQuote_eq_some _ _ _ _ (Nat.zero_le _) hvb (fun i _ hi2 => hin i hi2)
  have h2 : nextValidQuote '"' L (u.length + 1) = some (u.length + v.length + 1) :=
    nextValidQuote_eq_some _ _ _ _ (by omega) hve
      (fun i hi1 hi2 => hbet i (by omega) hi2)
  have htake : L.take u.length = u := by
    rw [hL]
    exact List.take_left u _
  have hdrop : L.drop (u.length + v.length + 1 + 1) = w := by
    rw [hL]
    have hsplit : u ++ '"' :: (v ++ '"' :: w) = ((u ++ '"' :: v) ++ ['"']) ++ w := by
      simp
    rw [hsplit]
    have hlen2 : ((u ++ '"' :: v) ++ ['"']).length = u.length + v.length + 1 + 1 := by
      simp
      omega
    rw [← hlen2]
    exact List.drop_left _ _
  have hrepl : '"' ∉ "__REMOVED_STRING__".data := by decide
  have hnomem : '"' ∉ u ++ "__REMOVED_STRING__".data ++ w := by
    intro hmem
    rcases List.mem_append.mp hmem with h5 | h5
    · rcases List.mem_append.mp h5 with h6 | h6
      · exact hu h6
      · exact hrepl h6
    · exact hw h5
  have h3 : nextValidQuote '"' (u ++ "__REMOVED_STRING__".data ++ w)
      (u.length + "__REMOVED_STRING__".data.length + 1) = none :=
    nextValidQuote_eq_none _ _ _
      (fun i _ _ => validQuote_of_not_mem _ _ _ hnomem)
  have hlen : L.length = (u.length + v.length + w.length + 1) + 1 := by
    rw [hL]
    simp
    omega
  rw [replaceQuotesCall_not_consuming, h1, rqLoop_step _ _ _ _ L.length L
    u.length (u.length + v.length + 1) h2, htake, hdrop, h3, hlen, rqLoop_exit]

/-- Witness for C1: the line `a "b";` (with newline), i.e.
`u = "a ", v = "b", w = ";\n"`. -/
theorem rq_single_string_witness :
    ('"' ∉ "a ".data) ∧ ('"' ∉ "b".data) ∧ ('"' ∉ ";\n".data) ∧
    isEscapedAt ("a ".data ++ '"' :: ("b".data ++ '"' :: ";\n".data)) 2 = false ∧
    replaceQuotesCall '"' "__REMOVED_STRING__".data false
        ("a ".data ++ '"' :: ("b".data ++ '"' :: ";\n".data)) =
      .ok (⟨"a ".data ++ "__REMOVED_STRING__".data ++ ";\n".data, none, false⟩,
           false) := by
  refine ⟨by decide, by decide, by decide, by decide, ?_⟩
  exact rq_single_string "a ".data "b".data ";\n".data (by decide) (by decide)
    (by decide) (by decide) (by decide) (by decide) (by decide)

/-! ### C7: the unused-local-variables warning -/

/-- C7: when a line carries the function-closing keyword and none of the
higher-priority cases (function keyword, local keyword, consuming
sub-states), the scope analyzer pops the top frame and emits exactly one
combined message listing precisely the names remaining in that frame's
unused-locals set — and no message at all when that set is empty — while
the popped argument set `atop` never contributes to the message. -/
theorem ul_end_function_warning (s : ULState) (ln : List Char)
    (top atop : List String)
    (h1 : findKw "function".data ln = none)
    (h2 : findKw "local".data ln = none)
    (h3 : s.consumingLvars = false)
    (h4 : s.consumingArgs = false)
    (h5 : (findKw "end".data ln).isSome = true)
    (htop : s.lvars.getLast? = some top)
    (hatop : s.args.getLast? = some atop) :
    ulCall s ln =
      .ok ({ s with depth := s.depth - 1,
                    lvars := s.lvars.dropLast, args := s.args.dropLast },
           ⟨ln,
            if top ≠ [] then
              some ("unused local variables: " ++ String.intercalate ", " top)
            else none,
            false⟩) := by
  obtain ⟨j, hj⟩ := Option.isSome_iff_exists.mp h5
  simp [ulCall, endFunction, h1, h2, h3, h4, hj, htop, hatop]

/-- Witness for C7: the state after `f := function(x) / local a, b; /
a := x + 1;` has one open frame with unused local `b` and unused argument
`x`; the line `end;` produces exactly the warning listing `b` (and nothing
about the argument `x`). -/
theorem ul_end_function_warning_witness :
    findKw "function".data "end;\n".data = none ∧
    findKw "local".data "end;\n".data = none ∧
    (findKw "end".data "end;\n".data).isSome = true ∧
    ulCall ⟨false, false, 0, [["x"]], [["b"]]⟩ "end;\n".data =
      .ok (⟨false, false, -1, [], []⟩,
           ⟨"end;\n".data, some "unused local variables: b", false⟩) := by
  refine ⟨by decide, by decide, by decide, ?_⟩
  rw [ul_end_function_warning ⟨false, false, 0, [["x"]], [["b"]]⟩ "end;\n".data
    ["b"] ["x"] (by decide) (by decide) rfl rfl (by decide) rfl rfl]
  rfl

/-- The full scenario of the specification's test, evaluated end to end:
a function declaring argument `x` and locals `a, b`, using only `a` and
`x`, produces no message until the closing line, and exactly one message
`unused local variables: b` there. -/
theorem ul_scenario :
    ulRun ulInit ["f := function(x)\n".data, "local a, b;\n".data,
      "a := x + 1;\n".data, "end;\n".data] =
      .ok (ulInit, [none, none, none, some "unused local variables: b"]) := by rfl

end Gaplint
